import Mathlib

/-!
Verification of the bash permission hook decision engine.

Shallow embedding of the Rust sources:
  src/main.rs     : analyze_command, check_single_command, format_reason, shorten_command
  src/wrapper.rs  : unwrap_command and the per-wrapper resolvers
  src/wrappers/shell.rs : the inline shell resolver and strip_quotes
  src/rm.rs       : check_rm, is_safe_path, is_under_allowed_dir
  src/tee.rs      : check_tee, is_safe_tmp_path, is_under_tmp

External collaborators (the bash tokenizer, the rule database in config.rs and
the realpath canonicalizer) are modelled as parameters.  Rust strings are
embedded as Lean strings; Rust str::starts_with / ends_with are embedded at the
character level (for UTF-8 encoded strings byte prefixes and character
prefixes coincide), as strStartsWith / strEndsWith below.
-/

set_option maxHeartbeats 1000000
set_option linter.unnecessarySeqFocus false

/-- Permission, embedding the Rust enum with order Allow < Ask < Deny. -/
inductive Permission where
  | allow
  | ask
  | deny
deriving DecidableEq, Repr

/-- Rank of a permission; the Rust code compares permissions with the derived
order Allow < Ask < Deny, embedded here through this rank. -/
def Permission.rank : Permission → Nat
  | .allow => 0
  | .ask => 1
  | .deny => 2

/-- PermissionResult, embedding the Rust struct from config.rs. -/
structure PermissionResult where
  permission : Permission
  reason : String
  suggestion : Option String
deriving DecidableEq, Repr

/-- Command, embedding the Rust struct from analyzer.rs: name, ordered args,
original source text. -/
structure Command where
  name : String
  args : List String
  text : String
deriving DecidableEq, Repr

/-- Result of the external bash tokenizer (analyzer::analyze): a success flag,
an optional diagnostic, and the parsed command sequence. -/
structure Analysis where
  success : Bool
  error : Option String
  commands : List Command
deriving DecidableEq, Repr

/-- The external Policy Store (config.rs): plain lookup and host-aware lookup.
Modelled as an abstract pair of total functions. -/
structure Config where
  check : String → List String → PermissionResult
  checkWithHost : String → List String → Option String → PermissionResult

/-- UnwrapResult, embedding the Rust struct from wrapper.rs. -/
structure UnwrapResult where
  inner_command : Option String
  host : Option String
  wrapper : String
deriving DecidableEq, Repr

/-- Character-level embedding of Rust str::starts_with for a string pattern. -/
def strStartsWith (s pat : String) : Bool :=
  pat.data.isPrefixOf s.data

/-- Character-level embedding of Rust str::ends_with for a string pattern. -/
def strEndsWith (s pat : String) : Bool :=
  pat.data.isSuffixOf s.data

/-- Character-level embedding of Rust str::contains for a character pattern. -/
def strContains (a : String) (c : Char) : Bool :=
  a.data.contains c

/-- Chars strictly after the first occurrence of c, or none if c is absent. -/
def dropThroughFirst (c : Char) : List Char → Option (List Char)
  | [] => none
  | x :: xs => if x == c then some xs else dropThroughFirst c xs

/-- Rust arg.find(c) followed by slicing &arg[pos+1..]: the part of the
string after the first occurrence of c, or the whole string if c does not
occur.  Used for the user@host splitting in wrapper.rs. -/
def afterFirstChar (a : String) (c : Char) : String :=
  match dropThroughFirst c a.data with
  | some l => ⟨l⟩
  | none => a

/-- Rust &arg[..colon_pos]: the part of the string before the first
occurrence of c (the whole string if c does not occur). -/
def beforeFirstChar (a : String) (c : Char) : String :=
  ⟨a.data.takeWhile (· != c)⟩

/-- Character-level embedding of Rust str slicing s[..n] for a character
count n (str slicing is by bytes; the call sites slice off ASCII pieces). -/
def strTake (a : String) (n : Nat) : String :=
  ⟨a.data.take n⟩

/-! ## wrapper.rs -/

/-- The explicit value-taking-option list of unwrap_sudo (wrapper.rs lines
40-44). -/
def sudoOptsWithArgs : List String :=
  ["-g", "-p", "-r", "-t", "-u", "-T", "-C", "-h", "-U",
   "--group", "--prompt", "--role", "--type", "--user",
   "--other-user", "--timeout", "--close-from", "--host"]

/-- Last character of a combined sudo short-flag cluster is a value-taking
option (wrapper.rs lines 68-69). -/
def sudoLastTakesArg (a : String) : Bool :=
  match a.data.getLast? with
  | some c => ['g', 'p', 'r', 't', 'u', 'T', 'C', 'h', 'U'].contains c
  | none => false

/-- Condition of wrapper.rs lines 67-69: a combined short-flag cluster
(longer than two characters, not starting with "--") whose last character is
a value-taking option. -/
def sudoClusterSkips (a : String) : Bool :=
  a.length > 2 && !(strStartsWith a "--") && sudoLastTakesArg a

/-- The argument scan of unwrap_sudo (wrapper.rs lines 46-81): the loop with
skip_next / found_command state, written as recursion on the argument list.
Returns the inner_parts vector. -/
def sudoScan : List String → List String
  | [] => []
  | a :: rest =>
    if sudoOptsWithArgs.contains a then
      -- option taking an argument: skip it and the following token
      match rest with
      | [] => []
      | _ :: rest2 => sudoScan rest2
    else if strStartsWith a "-" then
      if sudoClusterSkips a then
        match rest with
        | [] => []
        | _ :: rest2 => sudoScan rest2
      else sudoScan rest
    else
      -- first non-option token: everything from here is the inner command
      a :: rest

/-- unwrap_sudo (wrapper.rs lines 34-92). -/
def unwrap_sudo (cmd : Command) : Option UnwrapResult :=
  let inner_parts := sudoScan cmd.args
  if inner_parts.isEmpty then none
  else some ⟨some (String.intercalate " " inner_parts), none, "sudo"⟩

/-- The value-taking-option list of unwrap_ssh (wrapper.rs lines 103-106). -/
def sshOptsWithArgs : List String :=
  ["-b", "-c", "-D", "-E", "-e", "-F", "-I", "-i", "-J", "-L", "-l", "-m",
   "-O", "-o", "-p", "-Q", "-R", "-S", "-W", "-w"]

/-- The argument scan of unwrap_ssh (wrapper.rs lines 108-147): skips options
(a 2-character value-taking option consumes the next token, a longer one has
its value inline), takes the first non-option token as the host (stripping a
leading user@), and returns the remaining tokens as the inner command parts. -/
def sshScan : List String → Option String × List String
  | [] => (none, [])
  | a :: rest =>
    if strStartsWith a "-" then
      if sshOptsWithArgs.contains (if a.length > 2 then strTake a 2 else a) then
        if a.length == 2 then
          match rest with
          | [] => (none, [])
          | _ :: rest2 => sshScan rest2
        else sshScan rest
      else sshScan rest
    else
      (some (afterFirstChar a '@'), rest)

/-- unwrap_ssh (wrapper.rs lines 96-158).  Always returns some. -/
def unwrap_ssh (cmd : Command) : Option UnwrapResult :=
  let scan := sshScan cmd.args
  some ⟨if scan.2.isEmpty then none else some (String.intercalate " " scan.2),
        scan.1, "ssh"⟩

/-- The host search of unwrap_scp (wrapper.rs lines 166-184): first non-option
token containing a colon whose user-stripped before-colon part does not look
like a local path. -/
def scpFindHost : List String → Option String
  | [] => none
  | a :: rest =>
    if strStartsWith a "-" then scpFindHost rest
    else if strContains a ':' then
      let beforeColon := beforeFirstChar a ':'
      let h := afterFirstChar beforeColon '@'
      if !(strStartsWith h "/") && !(strStartsWith h ".") then some h
      else scpFindHost rest
    else scpFindHost rest

/-- unwrap_scp (wrapper.rs lines 162-191).  Always returns some with no inner
command. -/
def unwrap_scp (cmd : Command) : Option UnwrapResult :=
  some ⟨none, scpFindHost cmd.args, "scp"⟩

/-- The host search of unwrap_rsync (wrapper.rs lines 198-217): like scp but
the local-path test is applied to the before-colon part before stripping
user@. -/
def rsyncFindHost : List String → Option String
  | [] => none
  | a :: rest =>
    if strStartsWith a "-" then rsyncFindHost rest
    else if strContains a ':' then
      let beforeColon := beforeFirstChar a ':'
      if strStartsWith beforeColon "/" || strStartsWith beforeColon "." then
        rsyncFindHost rest
      else some (afterFirstChar beforeColon '@')
    else rsyncFindHost rest

/-- unwrap_rsync (wrapper.rs lines 194-224). -/
def unwrap_rsync (cmd : Command) : Option UnwrapResult :=
  some ⟨none, rsyncFindHost cmd.args, "rsync"⟩

/-- unwrap_kubectl (wrapper.rs lines 229-255): only the exec subcommand is a
wrapper; the inner command is everything after the first "--" separator. -/
def unwrap_kubectl (cmd : Command) : Option UnwrapResult :=
  if cmd.args.head? ≠ some "exec" then none
  else
    let inner_command :=
      match cmd.args.findIdx? (· == "--") with
      | some pos =>
        let inner_parts := cmd.args.drop (pos + 1)
        if inner_parts.isEmpty then none
        else some (String.intercalate " " inner_parts)
      | none => none
    some ⟨inner_command, none, "kubectl exec"⟩

/-- The argument scan of unwrap_env (wrapper.rs lines 264-295): skips
value-taking options, bare flags and NAME=VALUE assignments; the first
remaining token starts the inner command. -/
def envScan : List String → List String
  | [] => []
  | a :: rest =>
    if ["-u", "--unset", "-C", "--chdir", "-S", "--split-string"].contains a then
      match rest with
      | [] => []
      | _ :: rest2 => envScan rest2
    else if strStartsWith a "-" then envScan rest
    else if strContains a '=' && !(strStartsWith a "=") then envScan rest
    else a :: rest

/-- unwrap_env (wrapper.rs lines 259-306). -/
def unwrap_env (cmd : Command) : Option UnwrapResult :=
  let inner_parts := envScan cmd.args
  if inner_parts.isEmpty then none
  else some ⟨some (String.intercalate " " inner_parts), none, "env"⟩

/-- Per-wrapper value-taking-option sets of unwrap_simple_wrapper
(wrapper.rs lines 315-321). -/
def simpleOptsWithArgs (name : String) : List String :=
  match name with
  | "nice" => ["-n", "--adjustment"]
  | "time" => ["-o", "-f", "--output", "--format"]
  | "strace" => ["-e", "-o", "-p", "-s", "-u", "-E"]
  | "ltrace" => ["-e", "-o", "-p", "-s", "-u", "-n"]
  | _ => []

/-- The argument scan of unwrap_simple_wrapper (wrapper.rs lines 323-350):
an option written opt=value never consumes the next token; an option in the
value-taking set without an inline =value consumes the next token. -/
def simpleScan (opts : List String) : List String → List String
  | [] => []
  | a :: rest =>
    if strStartsWith a "-" then
      -- Rust arg.split with = and next(): the part before the first =
      let opt := if strContains a '=' then beforeFirstChar a '=' else a
      if opts.contains opt && !(strContains a '=') then
        match rest with
        | [] => []
        | _ :: rest2 => simpleScan opts rest2
      else simpleScan opts rest
    else a :: rest

/-- unwrap_simple_wrapper (wrapper.rs lines 309-361). -/
def unwrap_simple_wrapper (cmd : Command) : Option UnwrapResult :=
  let inner_parts := simpleScan (simpleOptsWithArgs cmd.name) cmd.args
  if inner_parts.isEmpty then none
  else some ⟨some (String.intercalate " " inner_parts), none, cmd.name⟩

/-- unwrap_command (wrapper.rs lines 19-30): dispatch by command name. -/
def unwrap_command (cmd : Command) : Option UnwrapResult :=
  match cmd.name with
  | "sudo" => unwrap_sudo cmd
  | "ssh" => unwrap_ssh cmd
  | "scp" => unwrap_scp cmd
  | "rsync" => unwrap_rsync cmd
  | "env" => unwrap_env cmd
  | "kubectl" => unwrap_kubectl cmd
  | "nice" | "nohup" | "time" | "strace" | "ltrace" => unwrap_simple_wrapper cmd
  | _ => none

/-- Sanity checks for the wrapper resolver embedding, mirroring the test
vectors of wrapper.rs. -/
theorem unwrap_command_checks :
    unwrap_command ⟨"sudo", ["ls", "-la"], "sudo ls -la"⟩ =
      some ⟨some "ls -la", none, "sudo"⟩
    ∧ unwrap_command ⟨"sudo", ["-A", "-u", "root", "ls"], "sudo -A -u root ls"⟩ =
      some ⟨some "ls", none, "sudo"⟩
    ∧ unwrap_command ⟨"ssh", ["user@host", "ls", "-la"], ""⟩ =
      some ⟨some "ls -la", some "host", "ssh"⟩
    ∧ unwrap_command ⟨"ssh", ["-p", "22", "-i", "key.pem", "host", "whoami"], ""⟩ =
      some ⟨some "whoami", some "host", "ssh"⟩
    ∧ unwrap_command ⟨"scp", ["file.txt", "user@host:/path/"], ""⟩ =
      some ⟨none, some "host", "scp"⟩
    ∧ unwrap_command ⟨"env", ["VAR=1", "rm", "-rf", "/tmp"], ""⟩ =
      some ⟨some "rm -rf /tmp", none, "env"⟩
    ∧ unwrap_command ⟨"nice", ["-n", "10", "ls", "-la"], ""⟩ =
      some ⟨some "ls -la", none, "nice"⟩
    ∧ unwrap_command ⟨"kubectl", ["exec", "mypod", "--", "ls", "-la"], ""⟩ =
      some ⟨some "ls -la", none, "kubectl exec"⟩
    ∧ unwrap_command ⟨"kubectl", ["exec", "mypod"], ""⟩ =
      some ⟨none, none, "kubectl exec"⟩
    ∧ unwrap_command ⟨"kubectl", ["get", "pods"], ""⟩ = none := by
  refine ⟨by decide, by decide, by decide, by decide, by decide, by decide,
    by decide, by decide, by decide, by decide⟩

/-! ## wrappers/shell.rs -/

/-- Character-level embedding of Rust str::trim (strip leading and trailing
whitespace). -/
def strTrim (s : String) : String :=
  ⟨((s.data.dropWhile Char.isWhitespace).reverse.dropWhile Char.isWhitespace).reverse⟩

/-- strip_quotes (wrappers/shell.rs lines 39-46): trim, then remove one layer
of matching surrounding single or double quotes.  The Rust byte slice
s[1..len-1] is embedded as dropping the first and last character (the quote
characters are single-byte); when the trimmed string is a single quote
character the Rust slice s[1..0] panics, while this embedding returns the
empty string — theorems below do not rely on that corner. -/
def strip_quotes (s : String) : String :=
  let t := strTrim s
  if (strStartsWith t "'" && strEndsWith t "'")
      || (strStartsWith t "\"" && strEndsWith t "\"") then
    ⟨(t.data.drop 1).dropLast⟩
  else t

/-- unwrap (wrappers/shell.rs lines 7-36): sh/bash/zsh with -c and a
following token. -/
def shell_unwrap (cmd : Command) : Option UnwrapResult :=
  if !(["sh", "bash", "zsh"].contains cmd.name) then none
  else if cmd.args.length < 2 then none
  else
    match cmd.args.findIdx? (· == "-c") with
    | none => none
    | some c_pos =>
      if c_pos + 1 ≥ cmd.args.length then none
      else
        let inner_command := cmd.args.getD (c_pos + 1) ""
        some ⟨some (strip_quotes inner_command), none, cmd.name⟩

/-- Sanity checks for the inline shell resolver embedding, mirroring the
test vectors of wrappers/shell.rs. -/
theorem shell_unwrap_checks :
    shell_unwrap ⟨"sh", ["-c", "ls -la"], ""⟩ = some ⟨some "ls -la", none, "sh"⟩
    ∧ shell_unwrap ⟨"sh", ["script.sh"], ""⟩ = none
    ∧ shell_unwrap ⟨"sh", ["-c"], ""⟩ = none := by
  refine ⟨by decide, by decide, by decide⟩

/-! ## rm.rs and tee.rs -/

/-- Character-level embedding of the Rust byte slice &resolved[5..] used in
rm.rs and tee.rs (the sliced-off prefix "/tmp/" is ASCII, so byte count and
character count agree). -/
def strDrop (a : String) (n : Nat) : String :=
  ⟨a.data.drop n⟩

/-- is_under_tmp (tee.rs lines 83-105): confined to /tmp only with a
nonempty suffix after "/tmp/" that is not all slashes.  The dead inner
comparison with "/tmp" in the Rust source returns false on both branches and
is collapsed here. -/
def is_under_tmp (resolved : String) : Bool :=
  if !(strStartsWith resolved "/tmp/") then false
  else
    let after := strDrop resolved 5
    if after.isEmpty then false
    else if after.data.all (· == '/') then false
    else true

/-- is_under_allowed_dir (rm.rs lines 74-97): the /tmp test of is_under_tmp,
and additionally a plain prefix test against the session working directory
with one trailing separator appended if missing. -/
def is_under_allowed_dir (resolved : String) (initial_cwd : Option String) : Bool :=
  if strStartsWith resolved "/tmp/" &&
      (let after := strDrop resolved 5
       !after.isEmpty && !(after.data.all (· == '/'))) then
    true
  else
    match initial_cwd with
    | some cwd =>
      let cwdSlash := if strEndsWith cwd "/" then cwd else cwd ++ "/"
      strStartsWith resolved cwdSlash
    | none => false

/-- Drop trailing slash characters. -/
def trimSlashesRight (s : String) : String :=
  ⟨(s.data.reverse.dropWhile (· == '/')).reverse⟩

/-- Modelled Rust std::path::Path::parent composed with to_str (std library,
not part of this repository): the path without its final component; None for
the root or the empty path; Some "" for a bare relative component. -/
def parentPath (p : String) : Option String :=
  if p = "" then none
  else
    let t := trimSlashesRight p
    if t = "" then none
    else
      match t.data.reverse.findIdx? (· == '/') with
      | none => some ""
      | some k =>
        let i := t.data.length - 1 - k
        let cut := trimSlashesRight ⟨t.data.take i⟩
        if cut = "" then some "/" else some cut

/-- Sanity checks for the modelled path-parent function. -/
theorem parentPath_checks :
    parentPath "/tmp/a" = some "/tmp"
    ∧ parentPath "/tmp//a/" = some "/tmp"
    ∧ parentPath "/a" = some "/"
    ∧ parentPath "/" = none
    ∧ parentPath "" = none
    ∧ parentPath "a" = some "" := by
  refine ⟨by decide, by decide, by decide, by decide, by decide, by decide⟩

/-- is_safe_path (rm.rs lines 44-71).  The external realpath canonicalizer
(resolve_path, an external process call) is the resolve parameter; returning
none models a realpath failure. -/
def is_safe_path (resolve : String → Option String) (path : String)
    (initial_cwd : Option String) : Bool :=
  if path.isEmpty then false
  else if strContains path '\x00' || strContains path '\n' then false
  else
    match resolve path with
    | some resolved => is_under_allowed_dir resolved initial_cwd
    | none =>
      match parentPath path with
      | some parentStr =>
        if !parentStr.isEmpty then
          match resolve parentStr with
          | some resolvedParent => is_under_allowed_dir resolvedParent initial_cwd
          | none => false
        else false
      | none => false

/-- check_rm (rm.rs lines 11-41).  The loop over file arguments with an
early return on the first unsafe path is embedded as List.all. -/
def check_rm (resolve : String → Option String) (cmd : Command)
    (initial_cwd : Option String) : Option PermissionResult :=
  if cmd.name ≠ "rm" then none
  else
    let file_args := cmd.args.filter (fun a => !(strStartsWith a "-"))
    if file_args.isEmpty then none
    else if file_args.all (fun p => is_safe_path resolve p initial_cwd) then
      some ⟨.allow, "rm in /tmp or project dir", none⟩
    else none

/-- is_safe_tmp_path (tee.rs lines 48-80): like is_safe_path but confined to
/tmp only. -/
def is_safe_tmp_path (resolve : String → Option String) (path : String) : Bool :=
  if path.isEmpty then false
  else if strContains path '\x00' || strContains path '\n' then false
  else
    match resolve path with
    | some resolved => is_under_tmp resolved
    | none =>
      match parentPath path with
      | some parentStr =>
        if !parentStr.isEmpty then
          match resolve parentStr with
          | some resolvedParent => is_under_tmp resolvedParent
          | none => false
        else false
      | none => false

/-- check_tee (tee.rs lines 11-45).  The unused _initial_cwd parameter of the
Rust function is kept for signature fidelity. -/
def check_tee (resolve : String → Option String) (cmd : Command)
    (_initial_cwd : Option String) : Option PermissionResult :=
  if cmd.name ≠ "tee" then none
  else
    let file_args := cmd.args.filter (fun a => !(strStartsWith a "-"))
    if file_args.isEmpty then
      some ⟨.allow, "tee with no output file", none⟩
    else if file_args.all (fun p => is_safe_tmp_path resolve p) then
      some ⟨.allow, "tee to /tmp", none⟩
    else none

/-- Identity canonicalizer: treats every path as already canonical.  Used to
instantiate the external realpath call in concrete witnesses. -/
def resolveId : String → Option String := fun s => some s

/-- Sanity checks for the classifier embeddings with the identity
canonicalizer, mirroring the test vectors of rm.rs and tee.rs. -/
theorem classifier_checks :
    check_rm resolveId ⟨"rm", ["/tmp/test.txt"], ""⟩ none =
      some ⟨.allow, "rm in /tmp or project dir", none⟩
    ∧ check_rm resolveId ⟨"rm", ["-rf", "/tmp"], ""⟩ none = none
    ∧ check_rm resolveId ⟨"rm", ["-rf", "/tmp/"], ""⟩ none = none
    ∧ check_rm resolveId ⟨"rm", ["/tmp/a", "/home/user/b"], ""⟩ none = none
    ∧ check_rm resolveId ⟨"rm", ["/home/user/file"], ""⟩ none = none
    ∧ check_tee resolveId ⟨"tee", [], ""⟩ none =
      some ⟨.allow, "tee with no output file", none⟩
    ∧ check_tee resolveId ⟨"tee", ["-a", "/tmp/test.log"], ""⟩ none =
      some ⟨.allow, "tee to /tmp", none⟩
    ∧ check_tee resolveId ⟨"tee", ["/home/user/file.log"], ""⟩ none = none := by
  refine ⟨by decide, by decide, by decide, by decide, by decide, by decide,
    by decide, by decide⟩

/-! ## main.rs -/

/-- The body of the retain-the-most-restrictive step in analyze_command
(main.rs lines 122-128): keep the result with the strictly higher permission
rank, ties keeping the earlier one. -/
def moreRestrictive (most result : PermissionResult) : PermissionResult :=
  if most.permission.rank < result.permission.rank then result else most

/-- The body of analyze_command (main.rs lines 99-131) applied to an already
tokenized analysis, with the per-command evaluation abstracted: parse failure
gives Ask with the parser diagnostic, an empty command sequence gives Allow,
and otherwise the commands are folded with moreRestrictive starting from the
default Allow result. -/
def aggregate (perCmd : Command → PermissionResult) (analysis : Analysis) :
    PermissionResult :=
  if !analysis.success then
    ⟨.ask, analysis.error.getD "", none⟩
  else if analysis.commands.isEmpty then
    ⟨.allow, "No commands found", none⟩
  else
    analysis.commands.foldl (fun most cmd => moreRestrictive most (perCmd cmd))
      ⟨.allow, "", none⟩

/-- check_single_command (main.rs lines 134-168).  The mutual recursion with
analyze_command through the tokenizer is made well-founded with a fuel
parameter: each recursive unwrap step consumes one unit, and exhausted fuel
falls back to the plain rule lookup (the Rust code recurses without a bound;
every theorem below quantifies over sufficient fuel). -/
def check_single_command (tok : String → Analysis) (cfg : Config) :
    Nat → Command → PermissionResult
  | 0, cmd => cfg.check cmd.name cmd.args
  | fuel + 1, cmd =>
    match unwrap_command cmd with
    | some u =>
      match u.inner_command with
      | some inner =>
        let innerResult := aggregate (check_single_command tok cfg fuel) (tok inner)
        match u.host with
        | some _ =>
          let hostResult := cfg.checkWithHost cmd.name cmd.args u.host
          if innerResult.permission.rank < hostResult.permission.rank then hostResult
          else innerResult
        | none => innerResult
      | none =>
        match u.host with
        | some _ => cfg.checkWithHost cmd.name cmd.args u.host
        | none => cfg.check cmd.name cmd.args
    | none => cfg.check cmd.name cmd.args

/-- analyze_command (main.rs lines 99-131): tokenize the raw line and
aggregate the per-command results of check_single_command. -/
def analyze_command (tok : String → Analysis) (cfg : Config) (fuel : Nat)
    (raw : String) : PermissionResult :=
  aggregate (check_single_command tok cfg fuel) (tok raw)

/-- shorten_command (main.rs lines 186-192): cap the displayed command line
at 60 characters. -/
def shorten_command (command : String) : String :=
  if command.length > 60 then strTake command 60 else command

/-- format_reason (main.rs lines 171-183). -/
def format_reason (command : String) (result : PermissionResult) : String :=
  let reason :=
    if result.reason.isEmpty then command
    else shorten_command command ++ ": " ++ result.reason
  match result.suggestion with
  | some suggestion => reason ++ "\n" ++ suggestion
  | none => reason

/-- Modelled from the spec: the per-command dispatch that consults the
Safe-Path Classifiers before the Wrapper Resolver (spec 4.4: "Per-command
result: try Safe-Path Classifiers first; if no opinion, try the Wrapper
Resolver").  The provided main.rs revision declares neither mod rm nor mod
tee and never calls check_rm or check_tee, and config.rs is not among the
provided sources, so the code wiring the classifiers into the per-command
evaluation is missing from the sources; only this dispatch layer is modelled
from the spec — the classifiers themselves and the wrapper path are the
embeddings of rm.rs, tee.rs and main.rs above. -/
def check_single_command_full (tok : String → Analysis) (cfg : Config)
    (resolve : String → Option String) (initial_cwd : Option String)
    (fuel : Nat) (cmd : Command) : PermissionResult :=
  match check_rm resolve cmd initial_cwd with
  | some result => result
  | none =>
    match check_tee resolve cmd initial_cwd with
    | some result => result
    | none => check_single_command tok cfg fuel cmd

/-! ## Concrete instruments for witnesses

A whitespace tokenizer producing at most one command, an always-succeeding
empty tokenizer, and a sample policy store.  These instantiate the external
collaborators in closed witness statements. -/

/-- A concrete tokenizer: split the raw line on spaces into one command. -/
def tokWords (raw : String) : Analysis :=
  match (raw.data.splitOn ' ').filter (fun w => !w.isEmpty) with
  | [] => ⟨true, none, []⟩
  | n :: as => ⟨true, none, [⟨⟨n⟩, as.map (fun w => (⟨w⟩ : String)), raw⟩]⟩

/-- A concrete tokenizer that succeeds with no commands. -/
def tokEmptyOK : String → Analysis := fun _ => ⟨true, none, []⟩

/-- A concrete tokenizer that fails with a diagnostic. -/
def tokFail : String → Analysis := fun _ => ⟨false, some "syntax error", []⟩

/-- A sample policy store: deny rm, ask for hosts, allow the rest with a
nonempty reason. -/
def cfgTest : Config :=
  ⟨fun name _ => if name = "rm" then ⟨.deny, "dangerous", none⟩
                 else ⟨.allow, "fine", none⟩,
   fun _ _ _ => ⟨.ask, "remote", none⟩⟩

/-! ## Helper lemmas -/

theorem strStartsWith_iff {s p : String} :
    strStartsWith s p = true ↔ ∃ t : List Char, s.data = p.data ++ t := by
  unfold strStartsWith
  rw [ List.isPrefixOf_iff_prefix]
  constructor
  · rintro ⟨t, ht⟩
    exact ⟨t, ht.symm⟩
  · rintro ⟨t, ht⟩
    exact ⟨t, ht.symm⟩

theorem strEndsWith_iff {s p : String} :
    strEndsWith s p = true ↔ ∃ t : List Char, s.data = t ++ p.data := by
  unfold strEndsWith
  rw [List.isSuffixOf_iff_suffix]
  constructor
  · rintro ⟨t, ht⟩
    exact ⟨t, ht.symm⟩
  · rintro ⟨t, ht⟩
    exact ⟨t, ht.symm⟩

theorem is_under_tmp_iff (r : String) :
    is_under_tmp r = true ↔
      ∃ s : String, r = "/tmp/" ++ s ∧ s ≠ "" ∧ s.data.all (· == '/') = false := by
  constructor
  · intro h
    by_cases h1 : strStartsWith r "/tmp/" = true
    · obtain ⟨t, ht⟩ := strStartsWith_iff.mp h1
      have hdrop : strDrop r 5 = ⟨t⟩ := by
        apply String.ext
        show r.data.drop 5 = t
        rw [ht]
        exact List.drop_left' (by decide)
      by_cases h2 : (strDrop r 5).isEmpty = true
      · simp [is_under_tmp, h1, h2] at h
      · by_cases h3 : (strDrop r 5).data.all (· == '/') = true
        · simp [is_under_tmp, h1, h2, h3] at h
        · rw [Bool.not_eq_true] at h2 h3
          refine ⟨⟨t⟩, ?_, ?_, ?_⟩
          · apply String.ext
            rw [ht]
            rfl
          · intro hcon
            rw [hdrop, hcon] at h2
            exact absurd h2 (by decide)
          · rw [hdrop] at h3
            exact h3
    · rw [Bool.not_eq_true] at h1
      simp [is_under_tmp, h1] at h
  · rintro ⟨s, rfl, hne, hall⟩
    have h1 : strStartsWith ("/tmp/" ++ s) "/tmp/" = true :=
      strStartsWith_iff.mpr ⟨s.data, by simp⟩
    have hdrop : strDrop ("/tmp/" ++ s) 5 = s := by
      apply String.ext
      show (("/tmp/" ++ s).data).drop 5 = s.data
      rw [String.data_append]
      exact List.drop_left' (by decide)
    have hem : s.isEmpty = false := by
      rw [← Bool.not_eq_true, String.isEmpty_iff]
      exact hne
    unfold is_under_tmp
    rw [h1, hdrop]
    simp [hem, hall]

theorem is_under_allowed_dir_none_eq (r : String) :
    is_under_allowed_dir r none = is_under_tmp r := by
  unfold is_under_allowed_dir is_under_tmp
  cases h1 : strStartsWith r "/tmp/" <;>
    cases h2 : (strDrop r 5).isEmpty <;>
      cases h3 : (strDrop r 5).data.all (· == '/') <;>
        simp [h1, h2, h3]

theorem is_under_allowed_dir_some_eq (r cwd : String) :
    is_under_allowed_dir r (some cwd) =
      (is_under_tmp r ||
        strStartsWith r (if strEndsWith cwd "/" then cwd else cwd ++ "/")) := by
  unfold is_under_allowed_dir is_under_tmp
  cases h1 : strStartsWith r "/tmp/" <;>
    cases h2 : (strDrop r 5).isEmpty <;>
      cases h3 : (strDrop r 5).data.all (· == '/') <;>
        cases h4 : strEndsWith cwd "/" <;>
          simp [h1, h2, h3, h4]

theorem check_tee_ignores_cwd (resolve : String → Option String) (cmd : Command)
    (c1 c2 : Option String) : check_tee resolve cmd c1 = check_tee resolve cmd c2 := rfl

theorem check_rm_eq (resolve : String → Option String) (cmd : Command)
    (initial_cwd : Option String) :
    check_rm resolve cmd initial_cwd =
      if cmd.name = "rm" then
        if cmd.args.filter (fun a => !(strStartsWith a "-")) = [] then none
        else if (cmd.args.filter (fun a => !(strStartsWith a "-"))).all
            (fun p => is_safe_path resolve p initial_cwd) then
          some ⟨Permission.allow, "rm in /tmp or project dir", none⟩
        else none
      else none := by
  simp only [check_rm]
  by_cases h1 : cmd.name = "rm"
  · simp [h1, List.isEmpty_iff]
  · simp [h1]

theorem check_tee_eq (resolve : String → Option String) (cmd : Command)
    (initial_cwd : Option String) :
    check_tee resolve cmd initial_cwd =
      if cmd.name = "tee" then
        if cmd.args.filter (fun a => !(strStartsWith a "-")) = [] then
          some ⟨Permission.allow, "tee with no output file", none⟩
        else if (cmd.args.filter (fun a => !(strStartsWith a "-"))).all
            (fun p => is_safe_tmp_path resolve p) then
          some ⟨Permission.allow, "tee to /tmp", none⟩
        else none
      else none := by
  simp only [check_tee]
  by_cases h1 : cmd.name = "tee"
  · simp [h1, List.isEmpty_iff]
  · simp [h1]

/-! ## C4 -/

/-- C4 counterexample: in the rm classifier the session working directory
test is a plain prefix test, so the root followed by only a separator is
accepted as confined, contradicting the claim that the root followed only by
separator characters is never confined. -/
theorem c4_root_slash_confined :
    is_under_allowed_dir "/home/user/" (some "/home/user") = true := by decide

/-- C4 (amended): a canonical path is confined to the tmp root only when it
equals "/tmp/" followed by a nonempty suffix that is not all separators, in
both classifiers (and the rm classifier with no session directory agrees
with the tee test); the tee classifier ignores the session working
directory; but the rm session-working-directory test is only a prefix test
against the directory with one trailing separator appended if missing, which
also accepts the root followed by separators alone. -/
theorem c4_confinement :
    (∀ r, is_under_tmp r = true ↔
      ∃ s : String, r = "/tmp/" ++ s ∧ s ≠ "" ∧ s.data.all (· == '/') = false)
    ∧ is_under_tmp "/tmp" = false
    ∧ is_under_tmp "/tmp/" = false
    ∧ is_under_tmp "/tmp///" = false
    ∧ (∀ r, is_under_allowed_dir r none = is_under_tmp r)
    ∧ (∀ resolve cmd c1 c2, check_tee resolve cmd c1 = check_tee resolve cmd c2)
    ∧ (∀ r cwd, is_under_allowed_dir r (some cwd) =
        (is_under_tmp r ||
          strStartsWith r (if strEndsWith cwd "/" then cwd else cwd ++ "/"))) :=
  ⟨is_under_tmp_iff, by decide, by decide, by decide,
   is_under_allowed_dir_none_eq, check_tee_ignores_cwd, is_under_allowed_dir_some_eq⟩

/-! ## C7 -/

/-- C7: a Safe-Path Classifier only ever returns a result whose permission is
Allow; it has no Deny or Ask output. -/
theorem c7_classifiers_only_allow :
    ∀ (resolve : String → Option String) (cmd : Command)
      (initial_cwd : Option String) (r : PermissionResult),
      (check_rm resolve cmd initial_cwd = some r → r.permission = Permission.allow)
      ∧ (check_tee resolve cmd initial_cwd = some r → r.permission = Permission.allow) := by
  intro resolve cmd initial_cwd r
  constructor
  · intro h
    rw [check_rm_eq] at h
    split_ifs at h <;>
      first
        | exact Option.noConfusion h
        | (injection h with h4; rw [← h4])
  · intro h
    rw [check_tee_eq] at h
    split_ifs at h <;>
      first
        | exact Option.noConfusion h
        | (injection h with h4; rw [← h4])

/-- C7 witness: the classifier result on a concrete confined rm is Allow. -/
theorem c7_classifiers_only_allow_witness :
    check_rm resolveId ⟨"rm", ["/tmp/x.txt"], "rm /tmp/x.txt"⟩ none =
      some ⟨Permission.allow, "rm in /tmp or project dir", none⟩
    ∧ (⟨Permission.allow, "rm in /tmp or project dir", none⟩ :
        PermissionResult).permission = Permission.allow :=
  ⟨by decide,
   (c7_classifiers_only_allow resolveId ⟨"rm", ["/tmp/x.txt"], "rm /tmp/x.txt"⟩
      none ⟨Permission.allow, "rm in /tmp or project dir", none⟩).1 (by decide)⟩

/-! ## C5 -/

/-- C5: with no non-flag path arguments tee allows unconditionally and rm
defers; with path arguments the result is Allow exactly when every path
passes the safety check, and a single failing path makes the classifier
defer — conjunction, not disjunction. -/
theorem c5_path_conjunction :
    ∀ (resolve : String → Option String) (cmd : Command)
      (initial_cwd : Option String),
      (cmd.name = "tee" →
        cmd.args.filter (fun a => !(strStartsWith a "-")) = [] →
        check_tee resolve cmd initial_cwd =
          some ⟨Permission.allow, "tee with no output file", none⟩)
      ∧ (cmd.name = "rm" →
        cmd.args.filter (fun a => !(strStartsWith a "-")) = [] →
        check_rm resolve cmd initial_cwd = none)
      ∧ (∀ r, check_rm resolve cmd initial_cwd = some r →
          ∀ p ∈ cmd.args.filter (fun a => !(strStartsWith a "-")),
            is_safe_path resolve p initial_cwd = true)
      ∧ (∀ r, check_tee resolve cmd initial_cwd = some r →
          cmd.args.filter (fun a => !(strStartsWith a "-")) ≠ [] →
          ∀ p ∈ cmd.args.filter (fun a => !(strStartsWith a "-")),
            is_safe_tmp_path resolve p = true)
      ∧ (cmd.name = "rm" →
        cmd.args.filter (fun a => !(strStartsWith a "-")) ≠ [] →
        (∀ p ∈ cmd.args.filter (fun a => !(strStartsWith a "-")),
            is_safe_path resolve p initial_cwd = true) →
        check_rm resolve cmd initial_cwd =
          some ⟨Permission.allow, "rm in /tmp or project dir", none⟩)
      ∧ (∀ p ∈ cmd.args.filter (fun a => !(strStartsWith a "-")),
          (is_safe_path resolve p initial_cwd = false →
            check_rm resolve cmd initial_cwd = none)
          ∧ (is_safe_tmp_path resolve p = false →
            check_tee resolve cmd initial_cwd = none)) := by
  intro resolve cmd initial_cwd
  refine ⟨?_, ?_, ?_, ?_, ?_, ?_⟩
  · intro hn hf
    rw [check_tee_eq, if_pos hn, if_pos hf]
  · intro hn hf
    rw [check_rm_eq, if_pos hn, if_pos hf]
  · intro r h p hp
    rw [check_rm_eq] at h
    by_cases h1 : cmd.name = "rm"
    case neg => rw [if_neg h1] at h; exact Option.noConfusion h
    rw [if_pos h1] at h
    by_cases h2 : cmd.args.filter (fun a => !(strStartsWith a "-")) = []
    · rw [if_pos h2] at h; exact Option.noConfusion h
    · rw [if_neg h2] at h
      by_cases h3 : (cmd.args.filter (fun a => !(strStartsWith a "-"))).all
          (fun p => is_safe_path resolve p initial_cwd) = true
      · exact List.all_eq_true.mp h3 p hp
      · rw [if_neg h3] at h; exact Option.noConfusion h
  · intro r h hne p hp
    rw [check_tee_eq] at h
    by_cases h1 : cmd.name = "tee"
    case neg => rw [if_neg h1] at h; exact Option.noConfusion h
    rw [if_pos h1] at h
    by_cases h2 : cmd.args.filter (fun a => !(strStartsWith a "-")) = []
    · exact absurd h2 hne
    · rw [if_neg h2] at h
      by_cases h3 : (cmd.args.filter (fun a => !(strStartsWith a "-"))).all
          (fun p => is_safe_tmp_path resolve p) = true
      · exact List.all_eq_true.mp h3 p hp
      · rw [if_neg h3] at h; exact Option.noConfusion h
  · intro hn hne hall
    rw [check_rm_eq, if_pos hn, if_neg hne, if_pos (List.all_eq_true.mpr hall)]
  · intro p hp
    have hmem : p ∈ cmd.args.filter (fun a => !(strStartsWith a "-")) := hp
    constructor
    · intro hbad
      rw [check_rm_eq]
      by_cases h1 : cmd.name = "rm"
      case neg => rw [if_neg h1]
      rw [if_pos h1]
      by_cases h2 : cmd.args.filter (fun a => !(strStartsWith a "-")) = []
      · rw [if_pos h2]
      · rw [if_neg h2]
        have h3 : ¬((cmd.args.filter (fun a => !(strStartsWith a "-"))).all
            (fun p => is_safe_path resolve p initial_cwd) = true) := by
          intro hall
          exact absurd (List.all_eq_true.mp hall p hmem) (by simp [hbad])
        rw [if_neg h3]
    · intro hbad
      rw [check_tee_eq]
      by_cases h1 : cmd.name = "tee"
      case neg => rw [if_neg h1]
      rw [if_pos h1]
      by_cases h2 : cmd.args.filter (fun a => !(strStartsWith a "-")) = []
      · rw [h2] at hmem
        exact absurd hmem (List.not_mem_nil p)
      · rw [if_neg h2]
        have h3 : ¬((cmd.args.filter (fun a => !(strStartsWith a "-"))).all
            (fun p => is_safe_tmp_path resolve p) = true) := by
          intro hall
          exact absurd (List.all_eq_true.mp hall p hmem) (by simp [hbad])
        rw [if_neg h3]

/-- C5 witness: concrete instances of each clause — tee with no paths
allows, rm with no paths defers, rm with every path confined allows, and a
single unconfined path makes both defer. -/
theorem c5_path_conjunction_witness :
    check_tee resolveId ⟨"tee", ["-a"], "tee -a"⟩ none =
      some ⟨Permission.allow, "tee with no output file", none⟩
    ∧ check_rm resolveId ⟨"rm", ["-rf"], "rm -rf"⟩ none = none
    ∧ check_rm resolveId ⟨"rm", ["/tmp/a", "/tmp/b"], ""⟩ none =
      some ⟨Permission.allow, "rm in /tmp or project dir", none⟩
    ∧ check_rm resolveId ⟨"rm", ["/tmp/a", "/home/user/b"], ""⟩ none = none :=
  ⟨(c5_path_conjunction resolveId ⟨"tee", ["-a"], "tee -a"⟩ none).1 rfl (by decide),
   (c5_path_conjunction resolveId ⟨"rm", ["-rf"], "rm -rf"⟩ none).2.1 rfl (by decide),
   (c5_path_conjunction resolveId ⟨"rm", ["/tmp/a", "/tmp/b"], ""⟩ none).2.2.2.2.1 rfl
     (by decide) (by decide),
   ((c5_path_conjunction resolveId ⟨"rm", ["/tmp/a", "/home/user/b"], ""⟩ none).2.2.2.2.2
     "/home/user/b" (by decide)).1 (by decide)⟩

/-! ## C2 -/

theorem sudoOpts_dash (t : String) (h : sudoOptsWithArgs.contains t = true) :
    strStartsWith t "-" = true := by
  have hm : t ∈ sudoOptsWithArgs := by simpa using h
  fin_cases hm <;> decide

/-- C2: the sudo scan skips a listed value-taking option together with the
following token, skips a bare flag, consumes the following token after a
combined short-flag cluster whose last character is value-taking, and takes
the first non-option token and everything after it verbatim as the inner
command; in particular sudo ls -la unwraps to "ls -la" and
sudo -A -u root ls unwraps to "ls". -/
theorem c2_sudo_scan :
    (∀ a v rest, sudoOptsWithArgs.contains a = true →
      sudoScan (a :: v :: rest) = sudoScan rest)
    ∧ (∀ a v rest, sudoOptsWithArgs.contains a = false →
        strStartsWith a "-" = true → sudoClusterSkips a = true →
        sudoScan (a :: v :: rest) = sudoScan rest)
    ∧ (∀ a rest, sudoOptsWithArgs.contains a = false →
        strStartsWith a "-" = true → sudoClusterSkips a = false →
        sudoScan (a :: rest) = sudoScan rest)
    ∧ (∀ t rest, strStartsWith t "-" = false →
        sudoScan (t :: rest) = t :: rest)
    ∧ (∀ name text args t rest, sudoScan args = t :: rest →
        unwrap_sudo ⟨name, args, text⟩ =
          some ⟨some (String.intercalate " " (t :: rest)), none, "sudo"⟩)
    ∧ unwrap_command ⟨"sudo", ["ls", "-la"], "sudo ls -la"⟩ =
        some ⟨some "ls -la", none, "sudo"⟩
    ∧ unwrap_command ⟨"sudo", ["-A", "-u", "root", "ls"], "sudo -A -u root ls"⟩ =
        some ⟨some "ls", none, "sudo"⟩ := by
  refine ⟨?_, ?_, ?_, ?_, ?_, by decide, by decide⟩
  · intro a v rest h
    rw [sudoScan.eq_3, h]
    rfl
  · intro a v rest h1 h2 h3
    rw [sudoScan.eq_3, h1]
    simp [h2, h3]
  · intro a rest h1 h2 h3
    cases rest with
    | nil =>
      rw [sudoScan.eq_2, h1]
      simp [h2, h3]
    | cons b t =>
      rw [sudoScan.eq_3, h1]
      simp [h2, h3]
  · intro t rest h
    have hc : sudoOptsWithArgs.contains t = false := by
      cases hcc : sudoOptsWithArgs.contains t
      · rfl
      · exact absurd (sudoOpts_dash t hcc) (by simp [h])
    cases rest with
    | nil =>
      rw [sudoScan.eq_2, hc]
      simp [h]
    | cons b tl =>
      rw [sudoScan.eq_3, hc]
      simp [h]
  · intro name text args t rest hscan
    simp only [unwrap_sudo, hscan]
    simp

/-- C2 witness: each scan clause applied at a concrete input. -/
theorem c2_sudo_scan_witness :
    sudoScan ["-u", "root", "ls"] = sudoScan ["ls"]
    ∧ sudoScan ["-Au", "root", "ls"] = sudoScan ["ls"]
    ∧ sudoScan ["-A", "ls"] = sudoScan ["ls"]
    ∧ sudoScan ["ls", "-la"] = ["ls", "-la"]
    ∧ unwrap_sudo ⟨"sudo", ["ls", "-la"], "sudo ls -la"⟩ =
        some ⟨some (String.intercalate " " (["ls", "-la"])), none, "sudo"⟩ :=
  ⟨c2_sudo_scan.1 "-u" "root" ["ls"] (by decide),
   c2_sudo_scan.2.1 "-Au" "root" ["ls"] (by decide) (by decide) (by decide),
   c2_sudo_scan.2.2.1 "-A" ["ls"] (by decide) (by decide) (by decide),
   c2_sudo_scan.2.2.2.1 "ls" ["-la"] (by decide),
   c2_sudo_scan.2.2.2.2.1 "sudo" "sudo ls -la" ["ls", "-la"] "ls" ["-la"] (by decide)⟩

/-! ## C3 -/

theorem sshScan_host_none :
    ∀ args : List String, (sshScan args).1 = none → sshScan args = (none, []) := by
  intro args
  induction args using sshScan.induct with
  | case1 =>
    intro _
    rfl
  | case2 a h1 h2 h3 =>
    intro _
    rw [sshScan.eq_2, if_pos h1, if_pos h2, if_pos h3]
  | case3 a h1 h2 h3 b rest2 ih =>
    intro hh
    rw [sshScan.eq_3, if_pos h1, if_pos h2, if_pos h3] at hh ⊢
    exact ih hh
  | case4 a rest2 h1 h2 h3 ih =>
    intro hh
    cases rest2 with
    | nil =>
      rw [sshScan.eq_2, if_pos h1, if_pos h2, if_neg h3] at hh ⊢
      exact ih hh
    | cons b t =>
      rw [sshScan.eq_3, if_pos h1, if_pos h2, if_neg h3] at hh ⊢
      exact ih hh
  | case5 a rest2 h1 h2 ih =>
    intro hh
    cases rest2 with
    | nil =>
      rw [sshScan.eq_2, if_pos h1, if_neg h2] at hh ⊢
      exact ih hh
    | cons b t =>
      rw [sshScan.eq_3, if_pos h1, if_neg h2] at hh ⊢
      exact ih hh
  | case6 a rest2 h1 =>
    intro hh
    cases rest2 with
    | nil =>
      rw [sshScan.eq_2, if_neg h1] at hh
      exact absurd hh (by simp)
    | cons b t =>
      rw [sshScan.eq_3, if_neg h1] at hh
      exact absurd hh (by simp)

/-- C3 counterexample: ssh whose arguments are all options — the scan finds
no non-option token — still produces a wrapper match, with neither inner
command nor host, rather than none. -/
theorem c3_ssh_no_token_matches :
    unwrap_command ⟨"ssh", ["-v"], "ssh -v"⟩ = some ⟨none, none, "ssh"⟩ := by decide

theorem unwrap_command_eq_simple (name : String)
    (hn : ["nice", "nohup", "time", "strace", "ltrace"].contains name = true)
    (args : List String) (text : String) :
    unwrap_command ⟨name, args, text⟩ = unwrap_simple_wrapper ⟨name, args, text⟩ := by
  have hm : name ∈ ["nice", "nohup", "time", "strace", "ltrace"] := by simpa using hn
  fin_cases hm <;> rfl

/-- C3 (amended): when the option scan finds no non-option token, the sudo
and env resolvers and the pass-through resolvers (nice, nohup, time,
strace, ltrace) return none as claimed, but the ssh, scp and rsync
resolvers instead return a wrapper match with neither inner command nor
host. -/
theorem c3_no_nonoption_token :
    (∀ args text, sudoScan args = [] →
      unwrap_command ⟨"sudo", args, text⟩ = none)
    ∧ (∀ args text, envScan args = [] →
        unwrap_command ⟨"env", args, text⟩ = none)
    ∧ (∀ name, ["nice", "nohup", "time", "strace", "ltrace"].contains name = true →
        ∀ args text, simpleScan (simpleOptsWithArgs name) args = [] →
        unwrap_command ⟨name, args, text⟩ = none)
    ∧ (∀ args text, (sshScan args).1 = none →
        (sshScan args).2 = []
        ∧ unwrap_command ⟨"ssh", args, text⟩ = some ⟨none, none, "ssh"⟩)
    ∧ (∀ args text, scpFindHost args = none →
        unwrap_command ⟨"scp", args, text⟩ = some ⟨none, none, "scp"⟩)
    ∧ (∀ args text, rsyncFindHost args = none →
        unwrap_command ⟨"rsync", args, text⟩ = some ⟨none, none, "rsync"⟩) := by
  refine ⟨?_, ?_, ?_, ?_, ?_, ?_⟩
  · intro args text h
    show unwrap_sudo ⟨"sudo", args, text⟩ = none
    simp only [unwrap_sudo, h]
    rfl
  · intro args text h
    show unwrap_env ⟨"env", args, text⟩ = none
    simp only [unwrap_env, h]
    rfl
  · intro name hn args text h
    rw [unwrap_command_eq_simple name hn args text]
    simp [unwrap_simple_wrapper, h]
  · intro args text h
    have hs := sshScan_host_none args h
    constructor
    · rw [hs]
    · show unwrap_ssh ⟨"ssh", args, text⟩ = some ⟨none, none, "ssh"⟩
      simp only [unwrap_ssh, hs]
      rfl
  · intro args text h
    show unwrap_scp ⟨"scp", args, text⟩ = some ⟨none, none, "scp"⟩
    simp only [unwrap_scp, h]
  · intro args text h
    show unwrap_rsync ⟨"rsync", args, text⟩ = some ⟨none, none, "rsync"⟩
    simp only [unwrap_rsync, h]

/-- C3 witness: the clauses applied at concrete all-option argument lists
for every resolver family the claim covers. -/
theorem c3_no_nonoption_token_witness :
    unwrap_command ⟨"sudo", ["-A"], "sudo -A"⟩ = none
    ∧ unwrap_command ⟨"env", ["-i"], "env -i"⟩ = none
    ∧ unwrap_command ⟨"nice", ["-n", "10"], "nice -n 10"⟩ = none
    ∧ unwrap_command ⟨"ssh", ["-v"], "ssh -v"⟩ = some ⟨none, none, "ssh"⟩
    ∧ unwrap_command ⟨"scp", ["-r"], "scp -r"⟩ = some ⟨none, none, "scp"⟩
    ∧ unwrap_command ⟨"rsync", ["-av"], "rsync -av"⟩ = some ⟨none, none, "rsync"⟩ :=
  ⟨c3_no_nonoption_token.1 ["-A"] "sudo -A" (by decide),
   c3_no_nonoption_token.2.1 ["-i"] "env -i" (by decide),
   c3_no_nonoption_token.2.2.1 "nice" (by decide) ["-n", "10"] "nice -n 10" (by decide),
   (c3_no_nonoption_token.2.2.2.1 ["-v"] "ssh -v" (by decide)).2,
   c3_no_nonoption_token.2.2.2.2.1 ["-r"] "scp -r" (by decide),
   c3_no_nonoption_token.2.2.2.2.2 ["-av"] "rsync -av" (by decide)⟩

/-! ## C8 -/

theorem shell_unwrap_eq (cmd : Command) :
    shell_unwrap cmd =
      if ["sh", "bash", "zsh"].contains cmd.name then
        match cmd.args.findIdx? (· == "-c") with
        | some i =>
          if i + 1 < cmd.args.length then
            some ⟨some (strip_quotes (cmd.args.getD (i + 1) "")), none, cmd.name⟩
          else none
        | none => none
      else none := by
  simp only [shell_unwrap]
  cases hn : ["sh", "bash", "zsh"].contains cmd.name with
  | false => simp
  | true =>
    simp only [Bool.not_true, Bool.false_eq_true, if_false, if_true]
    by_cases hl : cmd.args.length < 2
    · rw [if_pos hl]
      cases hidx : cmd.args.findIdx? (· == "-c") with
      | none => rfl
      | some i =>
        have hi : i < cmd.args.length :=
          (List.findIdx?_eq_some_iff_findIdx_eq.mp hidx).1
        have hni : ¬(i + 1 < cmd.args.length) := by omega
        simp [hni]
    · rw [if_neg hl]
      cases hidx : cmd.args.findIdx? (· == "-c") with
      | none => rfl
      | some i =>
        by_cases hge : i + 1 ≥ cmd.args.length
        · have hni : ¬(i + 1 < cmd.args.length) := by omega
          simp [hge, hni]
        · have hlt2 : i + 1 < cmd.args.length := by omega
          simp [hge, hlt2]

/-- C8 counterexample: strip_quotes trims surrounding whitespace before
looking for quotes, so a following token with a leading space is not
returned with one quote layer stripped (which would leave it unchanged here)
but trimmed. -/
theorem c8_shell_trims_token :
    shell_unwrap ⟨"sh", ["-c", " ls"], "sh -c ' ls'"⟩ = some ⟨some "ls", none, "sh"⟩
    ∧ ("ls" : String) ≠ " ls" :=
  ⟨by decide, by decide⟩

/-- C8 (amended): the inline shell resolver matches exactly when the name is
sh, bash or zsh and a -c token appears with a following token; the inner
command is that following token first trimmed of surrounding whitespace and
then, when the trimmed token keeps a matching surrounding single or double
quote pair, with that one quote layer stripped (a trimmed token that is a
single quote character makes the Rust slice panic and is not covered); in
particular sh -c with a single-quoted rm -rf / yields inner command
"rm -rf /". -/
theorem c8_shell_resolver :
    (∀ cmd : Command, (shell_unwrap cmd).isSome = true ↔
      (["sh", "bash", "zsh"].contains cmd.name = true
        ∧ ∃ i, cmd.args.findIdx? (· == "-c") = some i ∧ i + 1 < cmd.args.length))
    ∧ (∀ (cmd : Command) (i : Nat), ["sh", "bash", "zsh"].contains cmd.name = true →
        cmd.args.findIdx? (· == "-c") = some i → i + 1 < cmd.args.length →
        shell_unwrap cmd =
          some ⟨some (strip_quotes (cmd.args.getD (i + 1) "")), none, cmd.name⟩)
    ∧ (∀ (s : String) (mid : List Char),
        (strTrim s).data = '\'' :: (mid ++ ['\'']) → strip_quotes s = ⟨mid⟩)
    ∧ (∀ (s : String) (mid : List Char),
        (strTrim s).data = '"' :: (mid ++ ['"']) → strip_quotes s = ⟨mid⟩)
    ∧ (∀ s : String,
        ((strStartsWith (strTrim s) "'" && strEndsWith (strTrim s) "'")
          || (strStartsWith (strTrim s) "\"" && strEndsWith (strTrim s) "\"")) = false →
        strip_quotes s = strTrim s)
    ∧ shell_unwrap ⟨"sh", ["-c", "'rm -rf /'"], "sh -c 'rm -rf /'"⟩ =
        some ⟨some "rm -rf /", none, "sh"⟩ := by
  refine ⟨?_, ?_, ?_, ?_, ?_, by decide⟩
  · intro cmd
    rw [shell_unwrap_eq]
    constructor
    · intro h
      cases hn : ["sh", "bash", "zsh"].contains cmd.name with
      | false =>
        rw [hn] at h
        exact absurd h (by simp)
      | true =>
        rw [hn] at h
        refine ⟨rfl, ?_⟩
        cases hidx : cmd.args.findIdx? (· == "-c") with
        | none =>
          rw [hidx] at h
          exact absurd h (by simp)
        | some i =>
          rw [hidx] at h
          by_cases h3 : i + 1 < cmd.args.length
          · exact ⟨i, rfl, h3⟩
          · simp [h3] at h
    · rintro ⟨hn, i, hidx, hlt⟩
      rw [hn, hidx]
      simp [hlt]
  · intro cmd i hn hidx hlt
    rw [shell_unwrap_eq, hn, hidx]
    simp [hlt]
  · intro s mid h
    have h1 : strStartsWith (strTrim s) "'" = true := by
      unfold strStartsWith
      rw [ List.isPrefixOf_iff_prefix, h]
      exact ⟨mid ++ ['\''], rfl⟩
    have h2 : strEndsWith (strTrim s) "'" = true := by
      unfold strEndsWith
      rw [List.isSuffixOf_iff_suffix, h]
      exact ⟨'\'' :: mid, by simp⟩
    simp only [strip_quotes, h1, h2, Bool.and_self, Bool.true_or, if_true]
    rw [h]
    simp
  · intro s mid h
    have h1 : strStartsWith (strTrim s) "\"" = true := by
      unfold strStartsWith
      rw [ List.isPrefixOf_iff_prefix, h]
      exact ⟨mid ++ ['"'], rfl⟩
    have h2 : strEndsWith (strTrim s) "\"" = true := by
      unfold strEndsWith
      rw [List.isSuffixOf_iff_suffix, h]
      exact ⟨'"' :: mid, by simp⟩
    simp only [strip_quotes, h1, h2, Bool.and_self, Bool.or_true, if_true]
    rw [h]
    simp
  · intro s hcond
    simp only [strip_quotes]
    rw [hcond]
    simp

/-- C8 witness: the matching clause, both quote-stripping clauses and the
no-quote clause applied at concrete tokens. -/
theorem c8_shell_resolver_witness :
    shell_unwrap ⟨"bash", ["-c", "echo hi"], "bash -c 'echo hi'"⟩ =
      some ⟨some (strip_quotes "echo hi"), none, "bash"⟩
    ∧ strip_quotes "'abc'" = ⟨['a', 'b', 'c']⟩
    ∧ strip_quotes "\"x y\"" = ⟨['x', ' ', 'y']⟩
    ∧ strip_quotes "ls" = strTrim "ls" :=
  ⟨c8_shell_resolver.2.1 ⟨"bash", ["-c", "echo hi"], "bash -c 'echo hi'"⟩ 0
     (by decide) (by decide) (by decide),
   c8_shell_resolver.2.2.1 "'abc'" ['a', 'b', 'c'] (by decide),
   c8_shell_resolver.2.2.2.1 "\"x y\"" ['x', ' ', 'y'] (by decide),
   c8_shell_resolver.2.2.2.2.1 "ls" (by decide)⟩

/-! ## C9 -/

/-- C9: a wrapper command whose resolver extracts an inner command and no
host is evaluated by check_single_command exactly as analyze_command
evaluates the inner command string (one recursive unwrap step consumes one
unit of fuel), so one-step and two-step unwrapping agree. -/
theorem c9_unwrap_idempotent :
    ∀ (tok : String → Analysis) (cfg : Config) (fuel : Nat) (cmd : Command)
      (u : UnwrapResult) (inner : String),
      unwrap_command cmd = some u → u.inner_command = some inner → u.host = none →
      check_single_command tok cfg (fuel + 1) cmd =
        analyze_command tok cfg fuel inner := by
  intro tok cfg fuel cmd u inner h1 h2 h3
  obtain ⟨ic, ho, w⟩ := u
  dsimp only at h2 h3
  subst h2
  subst h3
  simp only [check_single_command, h1]
  rfl

/-- C9 witness: sudo ls at one unwrap step equals the direct analysis of
"ls" under a concrete tokenizer and policy store. -/
theorem c9_unwrap_idempotent_witness :
    check_single_command tokWords cfgTest 1 ⟨"sudo", ["ls"], "sudo ls"⟩ =
      analyze_command tokWords cfgTest 0 "ls" :=
  c9_unwrap_idempotent tokWords cfgTest 0 ⟨"sudo", ["ls"], "sudo ls"⟩
    ⟨some "ls", none, "sudo"⟩ "ls" (by decide) rfl rfl

/-! ## C10 -/

/-- C10 counterexample: with an empty reason and a suggestion present the
assembled reason is not the raw line verbatim — the suggestion is appended
on its own line in this branch too. -/
theorem c10_empty_reason_suggestion :
    format_reason "ls" ⟨Permission.allow, "", some "use exa"⟩ = "ls\nuse exa"
    ∧ ("ls\nuse exa" : String) ≠ "ls" :=
  ⟨rfl, by decide⟩

/-- C10 (amended): empty reason gives the raw line, nonempty reason gives
the 60-character-capped line followed by the reason; in both branches any
suggestion is appended on its own line. -/
theorem c10_format_reason :
    ∀ (command : String) (result : PermissionResult),
      (result.reason = "" → result.suggestion = none →
        format_reason command result = command)
      ∧ (∀ s, result.reason = "" → result.suggestion = some s →
        format_reason command result = command ++ "\n" ++ s)
      ∧ (result.reason ≠ "" → result.suggestion = none →
        format_reason command result =
          shorten_command command ++ ": " ++ result.reason)
      ∧ (∀ s, result.reason ≠ "" → result.suggestion = some s →
        format_reason command result =
          shorten_command command ++ ": " ++ result.reason ++ "\n" ++ s)
      ∧ (¬(command.length > 60) → shorten_command command = command)
      ∧ (command.length > 60 → shorten_command command = strTake command 60) := by
  intro command result
  refine ⟨?_, ?_, ?_, ?_, ?_, ?_⟩
  · intro h1 h2
    simp only [format_reason, h2]
    rw [if_pos ((String.isEmpty_iff result.reason).mpr h1)]
  · intro s h1 h2
    simp only [format_reason, h2]
    rw [if_pos ((String.isEmpty_iff result.reason).mpr h1)]
  · intro h1 h2
    simp only [format_reason, h2]
    rw [if_neg (fun hc => h1 ((String.isEmpty_iff result.reason).mp hc))]
  · intro s h1 h2
    simp only [format_reason, h2]
    rw [if_neg (fun hc => h1 ((String.isEmpty_iff result.reason).mp hc))]
  · intro h
    simp only [shorten_command]
    rw [if_neg h]
  · intro h
    simp only [shorten_command]
    rw [if_pos h]

/-- C10 witness: a nonempty reason with a suggestion produces the capped
line, the reason, and the suggestion on its own line. -/
theorem c10_format_reason_witness :
    format_reason "ls" ⟨Permission.deny, "bad", some "tip"⟩ =
      shorten_command "ls" ++ ": " ++ "bad" ++ "\n" ++ "tip" :=
  (c10_format_reason "ls" ⟨Permission.deny, "bad", some "tip"⟩).2.2.2.1 "tip"
    (by decide) rfl

/-! ## C1 -/

/-- Maximum permission rank over a list of results, floored at Allow. -/
def maxRank (rs : List PermissionResult) : Nat :=
  rs.foldl (fun n r => max n r.permission.rank) 0

theorem foldl_max_acc (rs : List PermissionResult) :
    ∀ a : Nat, rs.foldl (fun n r => max n r.permission.rank) a = max a (maxRank rs) := by
  induction rs with
  | nil =>
    intro a
    simp [maxRank]
  | cons r t ih =>
    intro a
    show t.foldl _ (max a r.permission.rank) = _
    rw [ih (max a r.permission.rank)]
    have hc : maxRank (r :: t) = max r.permission.rank (maxRank t) := by
      show t.foldl _ (max 0 r.permission.rank) = _
      rw [ih (max 0 r.permission.rank)]
      omega
    rw [hc]
    omega

theorem maxRank_cons (r : PermissionResult) (t : List PermissionResult) :
    maxRank (r :: t) = max r.permission.rank (maxRank t) := by
  show t.foldl _ (max 0 r.permission.rank) = _
  rw [foldl_max_acc]
  omega

theorem rank_le_maxRank {rs : List PermissionResult} {r : PermissionResult}
    (h : r ∈ rs) : r.permission.rank ≤ maxRank rs := by
  induction rs with
  | nil => cases h
  | cons x t ih =>
    rw [maxRank_cons]
    cases h with
    | head => omega
    | tail _ h2 =>
      have := ih h2
      omega

theorem foldl_more_of_le (rs : List PermissionResult) :
    ∀ init : PermissionResult,
      (∀ r ∈ rs, r.permission.rank ≤ init.permission.rank) →
      rs.foldl moreRestrictive init = init := by
  induction rs with
  | nil =>
    intro init _
    rfl
  | cons x t ih =>
    intro init h
    show t.foldl moreRestrictive (moreRestrictive init x) = init
    have hx : x.permission.rank ≤ init.permission.rank := h x (List.mem_cons_self x t)
    have hstep : moreRestrictive init x = init := by
      unfold moreRestrictive
      rw [if_neg (by omega)]
    rw [hstep]
    exact ih init (fun r hr => h r (List.mem_cons_of_mem x hr))

theorem foldl_more_find (rs : List PermissionResult) :
    ∀ init : PermissionResult, init.permission.rank < maxRank rs →
      ∃ r, rs.find? (fun x => decide (maxRank rs ≤ x.permission.rank)) = some r
        ∧ rs.foldl moreRestrictive init = r
        ∧ r.permission.rank = maxRank rs := by
  induction rs with
  | nil =>
    intro init h
    simp [maxRank] at h
  | cons x t ih =>
    intro init h
    by_cases hc : maxRank t ≤ x.permission.rank
    · have hM : maxRank (x :: t) = x.permission.rank := by
        rw [maxRank_cons]
        omega
      have hh : init.permission.rank < x.permission.rank := by
        rw [hM] at h
        exact h
      have hstep : moreRestrictive init x = x := by
        unfold moreRestrictive
        rw [if_pos hh]
      refine ⟨x, ?_, ?_, hM.symm⟩
      · exact List.find?_cons_of_pos _ (by simp [hM])
      · show t.foldl moreRestrictive (moreRestrictive init x) = x
        rw [hstep]
        exact foldl_more_of_le t x (fun r hr => le_trans (rank_le_maxRank hr) hc)
    · push_neg at hc
      have hM : maxRank (x :: t) = maxRank t := by
        rw [maxRank_cons]
        omega
      have hacc : (moreRestrictive init x).permission.rank < maxRank t := by
        unfold moreRestrictive
        by_cases hlt : init.permission.rank < x.permission.rank
        · rw [if_pos hlt]
          omega
        · rw [if_neg hlt]
          rw [hM] at h
          exact h
      obtain ⟨r, hfind, hfold, hrank⟩ := ih (moreRestrictive init x) hacc
      refine ⟨r, ?_, hfold, by rw [hM]; exact hrank⟩
      rw [List.find?_cons_of_neg _ (by simp [hM]; omega)]
      simp only [hM]
      exact hfind

/-- C1 counterexample: the empty-sequence reason is capitalized
"No commands found", not "no commands found"; and on an all-Allow line the
final result is the default result with empty reason, not the per-command
result of maximal rank. -/
theorem c1_claim_refuted :
    analyze_command tokEmptyOK cfgTest 1 "" =
      ⟨Permission.allow, "No commands found", none⟩
    ∧ ("No commands found" : String) ≠ "no commands found"
    ∧ analyze_command tokWords cfgTest 1 "ls" = ⟨Permission.allow, "", none⟩
    ∧ check_single_command tokWords cfgTest 1 ⟨"ls", [], "ls"⟩ =
        ⟨Permission.allow, "fine", none⟩
    ∧ (⟨Permission.allow, "", none⟩ : PermissionResult) ≠
        ⟨Permission.allow, "fine", none⟩ :=
  ⟨by decide, by decide, by decide, by decide, by decide⟩

/-- C1 (amended): tokenizer failure gives Ask with the parser diagnostic; an
empty command sequence gives Allow with reason "No commands found";
otherwise the fold keeps the strictly-higher-ranked result, so the final
result is the earliest per-command result of maximal rank when that rank
exceeds Allow, and the default Allow result with empty reason otherwise. -/
theorem c1_aggregation :
    ∀ (tok : String → Analysis) (cfg : Config) (fuel : Nat) (raw d : String),
      ((tok raw).success = false → (tok raw).error = some d →
        analyze_command tok cfg fuel raw = ⟨Permission.ask, d, none⟩)
      ∧ ((tok raw).success = true → (tok raw).commands = [] →
        analyze_command tok cfg fuel raw =
          ⟨Permission.allow, "No commands found", none⟩)
      ∧ ((tok raw).success = true → (tok raw).commands ≠ [] →
        (maxRank ((tok raw).commands.map (check_single_command tok cfg fuel)) = 0 →
          analyze_command tok cfg fuel raw = ⟨Permission.allow, "", none⟩)
        ∧ (0 < maxRank ((tok raw).commands.map (check_single_command tok cfg fuel)) →
          ∃ r, ((tok raw).commands.map (check_single_command tok cfg fuel)).find?
              (fun x =>
                decide (maxRank ((tok raw).commands.map
                  (check_single_command tok cfg fuel)) ≤ x.permission.rank)) = some r
            ∧ analyze_command tok cfg fuel raw = r)) := by
  intro tok cfg fuel raw d
  refine ⟨?_, ?_, ?_⟩
  · intro h1 h2
    simp only [analyze_command, aggregate, h1, h2]
    rfl
  · intro h1 h2
    simp only [analyze_command, aggregate, h1, h2]
    rfl
  · intro h1 h2
    have he : ((tok raw).commands.isEmpty = true) = False := by
      simp [List.isEmpty_iff, h2]
    have hfold : analyze_command tok cfg fuel raw =
        ((tok raw).commands.map (check_single_command tok cfg fuel)).foldl
          moreRestrictive ⟨Permission.allow, "", none⟩ := by
      simp only [analyze_command, aggregate, h1, he]
      rw [List.foldl_map]
      rfl
    constructor
    · intro hM
      rw [hfold]
      exact foldl_more_of_le _ _ (fun r hr => by
        have := rank_le_maxRank hr
        omega)
    · intro hM
      obtain ⟨r, hfind, hfoldr, hrank⟩ :=
        foldl_more_find ((tok raw).commands.map (check_single_command tok cfg fuel))
          ⟨Permission.allow, "", none⟩ (by simpa [Permission.rank] using hM)
      exact ⟨r, hfind, by rw [hfold]; exact hfoldr⟩

/-- C1 witness: the failure clause at a failing tokenizer and the all-Allow
clause at a one-command line. -/
theorem c1_aggregation_witness :
    analyze_command tokFail cfgTest 1 "(" = ⟨Permission.ask, "syntax error", none⟩
    ∧ analyze_command tokWords cfgTest 1 "pwd" = ⟨Permission.allow, "", none⟩ :=
  ⟨(c1_aggregation tokFail cfgTest 1 "(" "syntax error").1 rfl rfl,
   ((c1_aggregation tokWords cfgTest 1 "pwd" "").2.2 rfl (by decide)).1 (by decide)⟩

/-! ## C6 -/

/-- C6 (against the spec-modelled dispatch): a Safe-Path Classifier opinion
is returned as-is and makes the result independent of the tokenizer and the
policy store; the wrapper path of check_single_command is consulted only
when both classifiers defer. -/
theorem c6_classifiers_first :
    ∀ (tok : String → Analysis) (cfg : Config) (resolve : String → Option String)
      (initial_cwd : Option String) (fuel : Nat) (cmd : Command),
      (∀ r, check_rm resolve cmd initial_cwd = some r →
        check_single_command_full tok cfg resolve initial_cwd fuel cmd = r)
      ∧ (∀ r, check_rm resolve cmd initial_cwd = none →
          check_tee resolve cmd initial_cwd = some r →
          check_single_command_full tok cfg resolve initial_cwd fuel cmd = r)
      ∧ (check_rm resolve cmd initial_cwd = none →
          check_tee resolve cmd initial_cwd = none →
          check_single_command_full tok cfg resolve initial_cwd fuel cmd =
            check_single_command tok cfg fuel cmd)
      ∧ (∀ (tok2 : String → Analysis) (cfg2 : Config),
          ((check_rm resolve cmd initial_cwd).isSome = true
            ∨ (check_tee resolve cmd initial_cwd).isSome = true) →
          check_single_command_full tok cfg resolve initial_cwd fuel cmd =
            check_single_command_full tok2 cfg2 resolve initial_cwd fuel cmd) := by
  intro tok cfg resolve initial_cwd fuel cmd
  refine ⟨?_, ?_, ?_, ?_⟩
  · intro r h
    simp only [check_single_command_full, h]
  · intro r h1 h2
    simp only [check_single_command_full, h1, h2]
  · intro h1 h2
    simp only [check_single_command_full, h1, h2]
  · intro tok2 cfg2 hor
    cases orm : check_rm resolve cmd initial_cwd with
    | some r => simp only [check_single_command_full, orm]
    | none =>
      cases ote : check_tee resolve cmd initial_cwd with
      | some r => simp only [check_single_command_full, orm, ote]
      | none => simp [orm, ote] at hor

/-- C6 witness: a confined rm is allowed by the classifier layer even though
the sample policy store would deny rm — the classifier opinion wins. -/
theorem c6_classifiers_first_witness :
    check_single_command_full tokWords cfgTest resolveId none 1
      ⟨"rm", ["/tmp/x.txt"], "rm /tmp/x.txt"⟩ =
      ⟨Permission.allow, "rm in /tmp or project dir", none⟩ :=
  (c6_classifiers_first tokWords cfgTest resolveId none 1
    ⟨"rm", ["/tmp/x.txt"], "rm /tmp/x.txt"⟩).1
    ⟨Permission.allow, "rm in /tmp or project dir", none⟩ (by decide)
